import Mathlib

/-!
Verification of the slot-availability calculator of the MediQ repository
(`get_available_slots` in `src/app.py`, lines 127-148).

Times of day are modelled as minutes since midnight (`Nat`).  The Python
`while` loop

    current = start_dt
    while current + timedelta(minutes=20) <= end_dt:
        slots.append(current.strftime("%H:%M"))
        current += timedelta(minutes=20)

is embedded as `slotsLoop`, a fuel-bounded recursion; `genSlots` supplies
fuel `shift_end + 1`, which is proved sufficient whenever the step is
positive (in the source the step is the constant 20).  The step is kept as
a parameter `interval` so that the spec-level operation
`available_slots(shift_start, shift_end, interval_length, booked_times)`
can be stated; the source instantiates it with 20.
-/

/-- One iteration structure of the `while` loop at `src/app.py:138-140`:
while `current + interval ≤ shiftEnd`, emit `current` and advance by
`interval`.  `fuel` bounds the number of iterations; it is irrelevant as
soon as it exceeds `(shiftEnd - current) / interval` (proved below). -/
def slotsLoop : Nat → Nat → Nat → Nat → List Nat
  | 0, _, _, _ => []
  | fuel + 1, current, interval, shiftEnd =>
    if current + interval ≤ shiftEnd then
      current :: slotsLoop fuel (current + interval) interval shiftEnd
    else []

/-- Candidate slot generation (`src/app.py:136-140`): the loop run from
`shiftStart`, with enough fuel for any positive `interval`. -/
def genSlots (shiftStart interval shiftEnd : Nat) : List Nat :=
  slotsLoop (shiftEnd + 1) shiftStart interval shiftEnd

/-- The spec operation
`available_slots(shift_start, shift_end, interval_length, booked_times)`:
generate the candidate slots, then keep those not in `booked_times`
(`src/app.py:148`: `[s for s in slots if s not in booked]`). -/
def available_slots (shift_start shift_end interval_length : Nat)
    (booked_times : List Nat) : List Nat :=
  (genSlots shift_start interval_length shift_end).filter
    (fun s => decide (s ∉ booked_times))

/-- Python `str.split(sep)` on character lists: split at every
non-overlapping leftmost occurrence of the (nonempty) separator.  The
fuel, instantiated with the input length, bounds the recursion; each step
consumes at least one character, so it never runs out. -/
def splitOnAux (sep : List Char) : Nat → List Char → List Char →
    List (List Char)
  | _, acc, [] => [acc.reverse]
  | 0, acc, l => [acc.reverse ++ l]
  | fuel + 1, acc, c :: cs =>
    if (c :: cs).take sep.length = sep then
      acc.reverse :: splitOnAux sep fuel [] ((c :: cs).drop sep.length)
    else
      splitOnAux sep fuel (c :: acc) cs

/-- `l.split(sep)` for a nonempty separator. -/
def splitOnL (sep l : List Char) : List (List Char) :=
  splitOnAux sep l.length [] l

/-- A one- or two-digit decimal field, as `strptime`'s `%H` / `%M`
directives accept. -/
def parseNat2 (l : List Char) : Option Nat :=
  match l with
  | [c] => if c.isDigit then some (c.toNat - 48) else none
  | [c, d] =>
    if c.isDigit && d.isDigit then
      some ((c.toNat - 48) * 10 + (d.toNat - 48))
    else none
  | _ => none

/-- `datetime.strptime(s, "%H:%M")` (`src/app.py:131-132`), as minutes
since midnight: one or two digits of hour (0-23), a colon, one or two
digits of minute (0-59); anything else fails. -/
def parseTime (s : String) : Option Nat :=
  match splitOnL [':'] s.data with
  | [h, m] =>
    match parseNat2 h, parseNat2 m with
    | some hh, some mm =>
      if hh ≤ 23 && mm ≤ 59 then some (hh * 60 + mm) else none
    | _, _ => none
  | _ => none

/-- `shift_str.split(" - ")` followed by unpacking into exactly two parts
and parsing each (`src/app.py:130-132`); any failure is caught by the
`except` clause and yields `none`. -/
def parseShift (s : String) : Option (Nat × Nat) :=
  match splitOnL [' ', '-', ' '] s.data with
  | [a, b] =>
    match parseTime ⟨a⟩, parseTime ⟨b⟩ with
    | some x, some y => some (x, y)
    | _, _ => none
  | _ => none

/-- The decimal digit character for `n < 10`. -/
def digitChar (n : Nat) : Char :=
  Char.ofNat (48 + n)

/-- Zero-padded two-digit rendering, as `strftime` produces. -/
def pad2 (n : Nat) : List Char :=
  [digitChar (n / 10 % 10), digitChar (n % 10)]

/-- `current.strftime("%H:%M")` (`src/app.py:139`). -/
def fmtTime (m : Nat) : String :=
  ⟨pad2 (m / 60) ++ ':' :: pad2 (m % 60)⟩

/-- The unfiltered candidate list of `get_available_slots`, as the strings
the source appends (`src/app.py:135-140`); empty when the shift string
does not parse. -/
def candidateSlots (shift_str : String) : List String :=
  match parseShift shift_str with
  | none => []
  | some (s, e) => (genSlots s 20 e).map fmtTime

/-- `get_available_slots` with the booked times passed explicitly: parse
the shift (soft-failing to `[]`), generate the 20-minute candidates, and
filter out the booked ones (`src/app.py:127-148`). -/
def availableSlotsOf (shift_str : String) (booked : List String) :
    List String :=
  match parseShift shift_str with
  | none => []
  | some (s, e) =>
    ((genSlots s 20 e).map fmtTime).filter (fun t => decide (t ∉ booked))

/-- A row of the `appointments` table, the columns the query at
`src/app.py:143-145` touches. -/
structure Appointment where
  doctor_id : Nat
  appointment_date : String
  appointment_time : String
  status : String
deriving DecidableEq

/-- The query `SELECT appointment_time FROM appointments WHERE doctor_id=?
AND appointment_date=? AND status!='Cancelled'` (`src/app.py:143-145`). -/
def bookedTimes (rows : List Appointment) (did : Nat) (date : String) :
    List String :=
  (rows.filter (fun r =>
    decide (r.doctor_id = did) && decide (r.appointment_date = date) &&
      decide (r.status ≠ "Cancelled"))).map (·.appointment_time)

/-- `get_available_slots(doctor_id, shift_str, date_str)`
(`src/app.py:127-148`), with the database contents passed as `rows`. -/
def get_available_slots (rows : List Appointment) (doctor_id : Nat)
    (shift_str date_str : String) : List String :=
  availableSlotsOf shift_str (bookedTimes rows doctor_id date_str)

/-- With any positive step, the loop emits exactly
`(shiftEnd - current) / interval` slots, provided the fuel exceeds that
bound. -/
lemma slotsLoop_length {interval : Nat} (hi : 0 < interval) :
    ∀ fuel current shiftEnd, (shiftEnd - current) / interval < fuel →
      (slotsLoop fuel current interval shiftEnd).length =
        (shiftEnd - current) / interval := by
  intro fuel
  induction fuel with
  | zero => intro current shiftEnd h; exact absurd h (Nat.not_lt_zero _)
  | succ n ih =>
    intro current shiftEnd h
    rw [slotsLoop]
    split
    · rename_i hle
      have hsub : shiftEnd - (current + interval) =
          shiftEnd - current - interval := by omega
      have hstep := Nat.div_eq_sub_div hi
        (show interval ≤ shiftEnd - current by omega)
      have h2 : (shiftEnd - (current + interval)) / interval < n := by
        rw [hsub]
        rw [hstep] at h
        exact Nat.lt_of_succ_lt_succ h
      rw [List.length_cons, ih (current + interval) shiftEnd h2, hsub, hstep]
    · rename_i hgt
      simp [Nat.div_eq_of_lt (show shiftEnd - current < interval by omega)]

/-- The fuel is irrelevant once it exceeds the iteration count: the loop
reaches its exit condition on its own. -/
lemma slotsLoop_fuel {interval : Nat} (hi : 0 < interval) :
    ∀ f1 f2 current shiftEnd, (shiftEnd - current) / interval < f1 →
      (shiftEnd - current) / interval < f2 →
      slotsLoop f1 current interval shiftEnd =
        slotsLoop f2 current interval shiftEnd := by
  intro f1
  induction f1 with
  | zero => intro f2 current shiftEnd h1 _; exact absurd h1 (Nat.not_lt_zero _)
  | succ n ih =>
    intro f2 current shiftEnd h1 h2
    match f2 with
    | 0 => exact absurd h2 (Nat.not_lt_zero _)
    | m + 1 =>
      rw [slotsLoop, slotsLoop]
      split
      · rename_i hle
        have hsub : shiftEnd - (current + interval) =
            shiftEnd - current - interval := by omega
        have hstep := Nat.div_eq_sub_div hi
          (show interval ≤ shiftEnd - current by omega)
        rw [hstep] at h1 h2
        have hb1 : (shiftEnd - (current + interval)) / interval < n := by
          rw [hsub]; exact Nat.lt_of_succ_lt_succ h1
        have hb2 : (shiftEnd - (current + interval)) / interval < m := by
          rw [hsub]; exact Nat.lt_of_succ_lt_succ h2
        rw [ih m (current + interval) shiftEnd hb1 hb2]
      · rfl

/-- `genSlots` is the loop with any sufficient fuel. -/
lemma slotsLoop_eq_genSlots {interval : Nat} (hi : 0 < interval)
    (fuel current shiftEnd : Nat)
    (h : (shiftEnd - current) / interval < fuel) :
    slotsLoop fuel current interval shiftEnd =
      genSlots current interval shiftEnd := by
  apply slotsLoop_fuel hi _ _ _ _ h
  calc (shiftEnd - current) / interval ≤ shiftEnd - current :=
        Nat.div_le_self _ _
    _ < shiftEnd + 1 := by omega

/-- The walk of `src/app.py:138-140` as a recurrence: emit `current` and
advance by `interval` exactly while `current + interval ≤ shiftEnd`. -/
lemma genSlots_unfold {interval : Nat} (hi : 0 < interval)
    (current shiftEnd : Nat) :
    genSlots current interval shiftEnd =
      if current + interval ≤ shiftEnd then
        current :: genSlots (current + interval) interval shiftEnd
      else [] := by
  rw [genSlots, slotsLoop]
  split
  · rename_i hle
    rw [slotsLoop_eq_genSlots hi]
    have : shiftEnd - (current + interval) ≤ shiftEnd - interval := by omega
    calc (shiftEnd - (current + interval)) / interval
        ≤ shiftEnd - (current + interval) := Nat.div_le_self _ _
      _ < shiftEnd := by omega
  · rfl

/-- Candidate count with a positive step: `(shiftEnd - shiftStart) / interval`
slots (integer division). -/
lemma genSlots_length {interval : Nat} (hi : 0 < interval)
    (shiftStart shiftEnd : Nat) :
    (genSlots shiftStart interval shiftEnd).length =
      (shiftEnd - shiftStart) / interval := by
  apply slotsLoop_length hi
  calc (shiftEnd - shiftStart) / interval ≤ shiftEnd - shiftStart :=
        Nat.div_le_self _ _
    _ < shiftEnd + 1 := by omega

/-- Every emitted slot lies between `current` and `shiftEnd - interval`. -/
lemma mem_slotsLoop {interval shiftEnd : Nat} :
    ∀ fuel current s, s ∈ slotsLoop fuel current interval shiftEnd →
      current ≤ s ∧ s + interval ≤ shiftEnd := by
  intro fuel
  induction fuel with
  | zero => intro current s h; simp [slotsLoop] at h
  | succ n ih =>
    intro current s h
    rw [slotsLoop] at h
    split at h
    · rename_i hle
      rcases List.mem_cons.mp h with rfl | hmem
      · exact ⟨Nat.le_refl _, hle⟩
      · have := ih (current + interval) s hmem
        omega
    · simp at h

/-- Every candidate slot lies between `shiftStart` and
`shiftEnd - interval`. -/
lemma mem_genSlots {interval shiftStart shiftEnd s : Nat}
    (h : s ∈ genSlots shiftStart interval shiftEnd) :
    shiftStart ≤ s ∧ s + interval ≤ shiftEnd :=
  mem_slotsLoop _ _ _ h

/-- With a positive step the loop output is strictly increasing. -/
lemma slotsLoop_sorted {interval shiftEnd : Nat} (hi : 0 < interval) :
    ∀ fuel current,
      List.Sorted (· < ·) (slotsLoop fuel current interval shiftEnd) := by
  intro fuel
  induction fuel with
  | zero => intro current; simp [slotsLoop]
  | succ n ih =>
    intro current
    rw [slotsLoop]
    split
    · rename_i hle
      refine List.sorted_cons.mpr ⟨?_, ih (current + interval)⟩
      intro b hb
      have := (mem_slotsLoop n (current + interval) b hb).1
      omega
    · simp

/-- The candidate sequence is strictly increasing. -/
lemma genSlots_sorted {interval : Nat} (hi : 0 < interval)
    (shiftStart shiftEnd : Nat) :
    List.Sorted (· < ·) (genSlots shiftStart interval shiftEnd) :=
  slotsLoop_sorted hi _ _

/-- Membership in the filtered result. -/
lemma mem_available_slots {shift_start shift_end interval_length s : Nat}
    {booked_times : List Nat} :
    s ∈ available_slots shift_start shift_end interval_length booked_times ↔
      s ∈ genSlots shift_start interval_length shift_end ∧
        s ∉ booked_times := by
  simp [available_slots, List.mem_filter]

/-- Claim C1: candidate generation follows the specified walk (emit and
advance by `interval_length` exactly while `current + interval_length ≤
shift_end`), and for a valid shift whose span is an exact multiple of
`interval_length` the number of candidates before filtering is
`(shift_end - shift_start) / interval_length`. -/
theorem C1_candidate_count (shift_start shift_end interval_length : Nat)
    (hi : 0 < interval_length) (_hv : shift_start < shift_end)
    (_hd : interval_length ∣ (shift_end - shift_start)) :
    genSlots shift_start interval_length shift_end =
      (if shift_start + interval_length ≤ shift_end then
        shift_start ::
          genSlots (shift_start + interval_length) interval_length shift_end
      else []) ∧
    (genSlots shift_start interval_length shift_end).length =
      (shift_end - shift_start) / interval_length :=
  ⟨genSlots_unfold hi _ _, genSlots_length hi _ _⟩

/-- Witness for C1 at the shift 08:00-09:00 with 20-minute steps. -/
theorem C1_candidate_count_witness :
    0 < 20 ∧ 480 < 540 ∧ 20 ∣ (540 - 480) ∧
      (genSlots 480 20 540).length = (540 - 480) / 20 :=
  ⟨by decide, by decide, by decide,
    (C1_candidate_count 480 540 20 (by decide) (by decide) (by decide)).2⟩

/-- Claim C2: no incomplete slot appears: every slot `s` of the returned
sequence satisfies `s + interval_length ≤ shift_end`. -/
theorem C2_no_overflow (shift_start shift_end interval_length s : Nat)
    (booked_times : List Nat)
    (hs : s ∈ available_slots shift_start shift_end interval_length
      booked_times) :
    s + interval_length ≤ shift_end :=
  (mem_genSlots (mem_available_slots.mp hs).1).2

/-- Witness for C2: 08:40 is returned for the 08:00-09:00 shift and ends
exactly at 09:00. -/
theorem C2_no_overflow_witness :
    520 ∈ available_slots 480 540 20 [500] ∧ 520 + 20 ≤ 540 :=
  ⟨by decide, C2_no_overflow 480 540 20 520 [500] (by decide)⟩

/-- Claim C3: filtering removes exactly the booked candidates: a booked
value that is a candidate is absent from the result, an unbooked candidate
is present, and booking entries that match no candidate, or are
duplicated, leave the result unchanged. -/
theorem C3_filtering (shift_start shift_end interval_length : Nat)
    (booked_times : List Nat) :
    (∀ b ∈ booked_times,
        b ∈ genSlots shift_start interval_length shift_end →
        b ∉ available_slots shift_start shift_end interval_length
          booked_times) ∧
    (∀ s ∈ genSlots shift_start interval_length shift_end,
        s ∉ booked_times →
        s ∈ available_slots shift_start shift_end interval_length
          booked_times) ∧
    (∀ x, x ∉ genSlots shift_start interval_length shift_end →
        available_slots shift_start shift_end interval_length
            (x :: booked_times) =
          available_slots shift_start shift_end interval_length
            booked_times) ∧
    (∀ x, available_slots shift_start shift_end interval_length
          (x :: x :: booked_times) =
        available_slots shift_start shift_end interval_length
          (x :: booked_times)) := by
  refine ⟨fun b hb _ habs => (mem_available_slots.mp habs).2 hb,
    fun s hg hnb => mem_available_slots.mpr ⟨hg, hnb⟩, ?_, ?_⟩
  · intro x hx
    apply List.filter_congr
    intro a ha
    have hax : a ≠ x := fun h => hx (h ▸ ha)
    simp [hax]
  · intro x
    apply List.filter_congr
    intro a _
    by_cases hax : a = x <;> simp [hax]

/-- Witness for C3: the booked candidate 08:20 is excluded from the
result for the 08:00-09:00 shift. -/
theorem C3_filtering_witness :
    500 ∈ [500, 100] ∧ 500 ∈ genSlots 480 20 540 ∧
      500 ∉ available_slots 480 540 20 [500, 100] :=
  ⟨by decide, by decide,
    (C3_filtering 480 540 20 [500, 100]).1 500 (by decide) (by decide)⟩

/-- Claim C4: soft failure: an unparseable shift string, or a parsed
shift with `shift_start ≥ shift_end`, yields the empty sequence (and no
exception: the embedding is a total function). -/
theorem C4_soft_failure (shift_str : String) (booked : List String) :
    (parseShift shift_str = none → availableSlotsOf shift_str booked = []) ∧
    (∀ s e, parseShift shift_str = some (s, e) → e ≤ s →
        availableSlotsOf shift_str booked = []) ∧
    (∀ s e i bk, 0 < i → e ≤ s → available_slots s e i bk = []) := by
  have hgen : ∀ s e i, 0 < i → e ≤ s → genSlots s i e = [] := by
    intro s e i hi hse
    rw [genSlots_unfold hi, if_neg]
    omega
  refine ⟨fun h => by simp [availableSlotsOf, h], ?_, ?_⟩
  · intro s e h hse
    simp [availableSlotsOf, h, hgen s e 20 (by decide) hse]
  · intro s e i bk hi hse
    simp [available_slots, hgen s e i hi hse]

/-- Witness for C4 at the malformed shift 10:00 - 09:00 (end before
start). -/
theorem C4_soft_failure_witness :
    parseShift "10:00 - 09:00" = some (600, 540) ∧ 540 ≤ 600 ∧
      availableSlotsOf "10:00 - 09:00" [] = [] :=
  ⟨by decide, by decide,
    (C4_soft_failure "10:00 - 09:00" []).2.1 600 540 (by decide) (by decide)⟩

/-- Claim C5: the returned sequence is strictly ascending, and it is the
candidate sequence restricted to unbooked slots in generation order
(a sublist of the candidates; filtering never reorders). -/
theorem C5_order (shift_start shift_end interval_length : Nat)
    (booked_times : List Nat) (hi : 0 < interval_length) :
    List.Sorted (· < ·)
      (available_slots shift_start shift_end interval_length
        booked_times) ∧
    (available_slots shift_start shift_end interval_length
        booked_times).Sublist
      (genSlots shift_start interval_length shift_end) ∧
    (∀ s, s ∈ available_slots shift_start shift_end interval_length
          booked_times ↔
        s ∈ genSlots shift_start interval_length shift_end ∧
          s ∉ booked_times) :=
  ⟨(genSlots_sorted hi shift_start shift_end).sublist
      (List.filter_sublist _),
    List.filter_sublist _, fun _ => mem_available_slots⟩

/-- Witness for C5 on the 08:00-09:00 shift with 08:20 booked. -/
theorem C5_order_witness :
    0 < 20 ∧ List.Sorted (· < ·) (available_slots 480 540 20 [500]) :=
  ⟨by decide, (C5_order 480 540 20 [500] (by decide)).1⟩

/-- Claim C6: worked example: shift 08:00-09:00 with 08:20 booked gives
candidates 08:00, 08:20, 08:40 and result 08:00, 08:40. -/
theorem C6_worked_example :
    candidateSlots "08:00 - 09:00" = ["08:00", "08:20", "08:40"] ∧
    availableSlotsOf "08:00 - 09:00" ["08:20"] = ["08:00", "08:40"] := by
  constructor <;> decide

/-- Claim C7: determinism: equal arguments give equal results, for any
number of repeated calls (the embedding is a pure function). -/
theorem C7_determinism (s1 s2 : String) (b1 b2 : List String)
    (hs : s1 = s2) (hb : b1 = b2) :
    availableSlotsOf s1 b1 = availableSlotsOf s2 b2 := by
  rw [hs, hb]

/-- Witness for C7: two identical calls on the worked example agree. -/
theorem C7_determinism_witness :
    availableSlotsOf "08:00 - 09:00" ["08:20"] =
      availableSlotsOf "08:00 - 09:00" ["08:20"] :=
  C7_determinism "08:00 - 09:00" "08:00 - 09:00" ["08:20"] ["08:20"]
    rfl rfl

/-- Claim C8: termination and boundedness: with a positive step the loop
performs exactly `(shift_end - shift_start) / interval_length` iterations,
and any fuel beyond that bound gives the same result — the loop reaches
its exit condition on its own. -/
theorem C8_termination (shift_start shift_end interval_length : Nat)
    (hi : 0 < interval_length) :
    (genSlots shift_start interval_length shift_end).length =
      (shift_end - shift_start) / interval_length ∧
    (∀ fuel, (shift_end - shift_start) / interval_length < fuel →
        slotsLoop fuel shift_start interval_length shift_end =
          genSlots shift_start interval_length shift_end) :=
  ⟨genSlots_length hi _ _,
    fun fuel hf => slotsLoop_eq_genSlots hi fuel _ _ hf⟩

/-- Witness for C8: on the 08:00-09:00 shift the loop runs 3 iterations,
and fuel 4 already suffices. -/
theorem C8_termination_witness :
    0 < 20 ∧ (540 - 480) / 20 < 4 ∧
      slotsLoop 4 480 20 540 = genSlots 480 20 540 :=
  ⟨by decide, by decide,
    (C8_termination 480 540 20 (by decide)).2 4 (by decide)⟩

/-- Claim C9: with no booked times the filter is the identity: the result
is exactly the unfiltered candidate sequence. -/
theorem C9_empty_booked (shift_start shift_end interval_length : Nat)
    (_hv : shift_start < shift_end) :
    available_slots shift_start shift_end interval_length [] =
      genSlots shift_start interval_length shift_end ∧
    (∀ shift_str, availableSlotsOf shift_str [] =
        candidateSlots shift_str) := by
  constructor
  · simp [available_slots]
  · intro shift_str
    rw [availableSlotsOf, candidateSlots]
    cases parseShift shift_str with
    | none => rfl
    | some p => simp

/-- Witness for C9 on the 08:00-09:00 shift. -/
theorem C9_empty_booked_witness :
    480 < 540 ∧ available_slots 480 540 20 [] = genSlots 480 20 540 :=
  ⟨by decide, (C9_empty_booked 480 540 20 (by decide)).1⟩

/-- Claim C10: cancelled bookings do not block a slot: the booked set is
unchanged when cancelled rows are dropped, and a candidate time all of
whose matching rows (same doctor and date) are cancelled remains in the
returned availability. -/
theorem C10_cancelled_excluded (rows : List Appointment) (did : Nat)
    (shift_str date_str t : String) (s e : Nat)
    (hp : parseShift shift_str = some (s, e))
    (ht : t ∈ (genSlots s 20 e).map fmtTime)
    (hc : ∀ r ∈ rows, r.doctor_id = did → r.appointment_date = date_str →
        r.appointment_time = t → r.status = "Cancelled") :
    bookedTimes rows did date_str =
      bookedTimes (rows.filter (fun r => decide (r.status ≠ "Cancelled")))
        did date_str ∧
    t ∈ get_available_slots rows did shift_str date_str := by
  constructor
  · rw [bookedTimes, bookedTimes, List.filter_filter]
    congr 1
    apply List.filter_congr
    intro r _
    by_cases hq : r.status = "Cancelled" <;> simp [hq]
  · have hnb : t ∉ bookedTimes rows did date_str := by
      intro habs
      simp only [bookedTimes, List.mem_map, List.mem_filter] at habs
      obtain ⟨r, ⟨hr, hpred⟩, hrt⟩ := habs
      simp only [Bool.and_eq_true, decide_eq_true_eq] at hpred
      exact hpred.2 (hc r hr hpred.1.1 hpred.1.2 hrt)
    simp only [get_available_slots, availableSlotsOf, hp]
    exact List.mem_filter.mpr ⟨ht, by simpa using hnb⟩

/-- Witness for C10: a cancelled 08:20 appointment leaves 08:20
available. -/
theorem C10_cancelled_excluded_witness :
    "08:20" ∈ get_available_slots
      [{ doctor_id := 1, appointment_date := "2026-01-01",
         appointment_time := "08:20", status := "Cancelled" }]
      1 "08:00 - 09:00" "2026-01-01" :=
  (C10_cancelled_excluded
    [{ doctor_id := 1, appointment_date := "2026-01-01",
       appointment_time := "08:20", status := "Cancelled" }]
    1 "08:00 - 09:00" "2026-01-01" "08:20" 480 540
    (by decide) (by decide) (by decide)).2
